import Mathlib

/-!
Verification development for the daily-change repository (superchangeai/daily-change).

The program is a two-stage LLM pipeline (src/change-job.js):
phase 1, `computeDiffs` (src/services/classification.js, final variant, lines 679-776),
summarises the difference between the two most recent snapshots of each active
source and inserts a `changes` row; phase 2, `classifyChanges` (same file,
lines 104-216), classifies each unclassified row.  Every provider call goes
through the rate limiter of src/services/rate-limiter.js.

The shallow embedding below translates the JavaScript into total Lean
functions.  External effects (Supabase queries, the LLM provider) are
modelled as oracle inputs carried by environment records; the duplicate-guard
read (`diffExists`) is modelled honestly against the evolving `changes`
table, because the claims under verification are about it.  `JSON.parse` is
modelled by an executable recursive-descent parser over the character list of
the input (`jsonParse` below); JS strings are modelled as Lean strings via
their character lists.  Prompt construction (pure string building that only
feeds the provider oracle) is not reproduced; the oracle takes the budgeted
texts as arguments so the context-budgeting step stays observable.
-/

/-! ## String helpers (JS semantics over `String.data`) -/

/-- JS `s.length`, modelled over the character list. -/
def strLen (s : String) : Nat := s.data.length

/-- JS `s.slice(0, n)` for a nonnegative end index: the first `n` characters. -/
def strTake (s : String) (n : Nat) : String := String.mk (s.data.take n)

/-- JS `String.prototype.trim`: drop whitespace from both ends. -/
def strTrim (s : String) : String :=
  String.mk (((s.data.dropWhile Char.isWhitespace).reverse.dropWhile Char.isWhitespace).reverse)

/-- JS `String.prototype.toLowerCase` (ASCII case mapping suffices for the
significance-gate phrase check). -/
def jsToLower (s : String) : String := String.mk (s.data.map Char.toLower)

/-- Does `needle` occur as a contiguous run inside the list? -/
def listHasSegment (needle : List Char) : List Char → Bool
  | [] => needle.isEmpty
  | c :: rest => needle.isPrefixOf (c :: rest) || listHasSegment needle rest

/-- JS `haystack.includes(needle)`: substring containment. -/
def jsIncludes (haystack needle : String) : Bool := listHasSegment needle.data haystack.data

/-- JS `s.slice(0, e)` for a possibly negative end index `e`
(negative `e` counts from the end, clamped at 0). -/
def jsSliceTo (s : String) (e : Int) : String :=
  if 0 ≤ e then strTake s e.toNat else strTake s ((strLen s : Int) + e).toNat

/-! ## JSON.parse model

An executable recursive-descent parser for JSON, used to model `JSON.parse`
in `extractText` (classification.js lines 806-814) and in the two response
parses (lines 926 and 190).  Numbers are kept as their source text (no field
read in this codebase uses a numeric value).  `\uXXXX` escapes outside the
valid scalar range decode to the replacement behaviour of `Char.ofNat`;
lone-surrogate fidelity is not needed by any claim. -/

inductive Json where
  | null
  | bool (b : Bool)
  | num (text : String)
  | str (s : String)
  | arr (elems : List Json)
  | obj (fields : List (String × Json))

/-- JSON insignificant whitespace (exactly the four characters of the grammar). -/
def jsonWs (c : Char) : Bool := c == ' ' || c == '\t' || c == '\n' || c == '\r'

/-- Value of a hex digit, if any. -/
def hexVal (c : Char) : Option Nat :=
  if '0' ≤ c ∧ c ≤ '9' then some (c.toNat - '0'.toNat)
  else if 'a' ≤ c ∧ c ≤ 'f' then some (c.toNat - 'a'.toNat + 10)
  else if 'A' ≤ c ∧ c ≤ 'F' then some (c.toNat - 'A'.toNat + 10)
  else none

/-- Parse the body of a JSON string (after the opening quote), with the
standard escapes.  Returns the decoded string and the rest of the input. -/
def pStr (fuel : Nat) (cs : List Char) (acc : List Char) : Option (String × List Char) :=
  match fuel, cs with
  | 0, _ => none
  | _ + 1, [] => none
  | f + 1, c :: rest =>
    if c = '"' then some (String.mk acc.reverse, rest)
    else if c = '\\' then
      match rest with
      | [] => none
      | e :: rest2 =>
        if e = '"' then pStr f rest2 ('"' :: acc)
        else if e = '\\' then pStr f rest2 ('\\' :: acc)
        else if e = '/' then pStr f rest2 ('/' :: acc)
        else if e = 'n' then pStr f rest2 ('\n' :: acc)
        else if e = 't' then pStr f rest2 ('\t' :: acc)
        else if e = 'r' then pStr f rest2 ('\r' :: acc)
        else if e = 'b' then pStr f rest2 ('\x08' :: acc)
        else if e = 'f' then pStr f rest2 ('\x0c' :: acc)
        else if e = 'u' then
          match rest2 with
          | h1 :: h2 :: h3 :: h4 :: rest3 =>
            match hexVal h1, hexVal h2, hexVal h3, hexVal h4 with
            | some v1, some v2, some v3, some v4 =>
              pStr f rest3 (Char.ofNat (((v1 * 16 + v2) * 16 + v3) * 16 + v4) :: acc)
            | _, _, _, _ => none
          | _ => none
        else none
    else if c.toNat < 32 then none
    else pStr f rest (c :: acc)

/-- Optional fraction part of a JSON number; `none` means a malformed input. -/
def pFrac : List Char → Option (List Char × List Char)
  | '.' :: r =>
    let ds := r.takeWhile Char.isDigit
    if ds.isEmpty then none else some ('.' :: ds, r.dropWhile Char.isDigit)
  | cs => some ([], cs)

/-- Optional exponent part of a JSON number; `none` means a malformed input. -/
def pExp : List Char → Option (List Char × List Char)
  | c :: r =>
    if c = 'e' ∨ c = 'E' then
      let (sgn, r1) : List Char × List Char :=
        match r with
        | '+' :: r2 => (['+'], r2)
        | '-' :: r2 => (['-'], r2)
        | _ => ([], r)
      let ds := r1.takeWhile Char.isDigit
      if ds.isEmpty then none else some (c :: (sgn ++ ds), r1.dropWhile Char.isDigit)
    else some ([], c :: r)
  | [] => some ([], [])

/-- Parse a JSON number (grammar `-?(0|[1-9][0-9]*)(\.[0-9]+)?([eE][+-]?[0-9]+)?`). -/
def pNum (cs : List Char) : Option (Json × List Char) :=
  let sr : List Char × List Char :=
    match cs with
    | '-' :: r => (['-'], r)
    | _ => ([], cs)
  match sr.2 with
  | [] => none
  | c :: r =>
    let ir : Option (List Char × List Char) :=
      if c = '0' then some ([c], r)
      else if c.isDigit then some ((c :: r).takeWhile Char.isDigit, (c :: r).dropWhile Char.isDigit)
      else none
    match ir with
    | none => none
    | some (intPart, r1) =>
      match pFrac r1 with
      | none => none
      | some (fr, r2) =>
        match pExp r2 with
        | none => none
        | some (ex, r3) => some (.num (String.mk (sr.1 ++ intPart ++ fr ++ ex)), r3)

mutual

/-- Parse one JSON value. -/
def pVal : Nat → List Char → Option (Json × List Char)
  | 0, _ => none
  | f + 1, cs =>
    match cs.dropWhile jsonWs with
    | [] => none
    | c :: rest =>
      if c = '\x7b' then pObj f rest
      else if c = '[' then pArr f rest
      else if c = '"' then
        match pStr (f + 1) rest [] with
        | some (s, r) => some (.str s, r)
        | none => none
      else if c = 't' then
        if (['r', 'u', 'e'] : List Char).isPrefixOf rest then some (.bool true, rest.drop 3)
        else none
      else if c = 'f' then
        if (['a', 'l', 's', 'e'] : List Char).isPrefixOf rest then some (.bool false, rest.drop 4)
        else none
      else if c = 'n' then
        if (['u', 'l', 'l'] : List Char).isPrefixOf rest then some (.null, rest.drop 3)
        else none
      else pNum (c :: rest)

/-- Parse the inside of a JSON array (after the opening bracket). -/
def pArr : Nat → List Char → Option (Json × List Char)
  | 0, _ => none
  | f + 1, cs =>
    match cs.dropWhile jsonWs with
    | ']' :: r => some (.arr [], r)
    | _ => pArrElems f cs []

/-- Parse array elements separated by commas, ending at the closing bracket. -/
def pArrElems : Nat → List Char → List Json → Option (Json × List Char)
  | 0, _, _ => none
  | f + 1, cs, acc =>
    match pVal f cs with
    | none => none
    | some (v, r) =>
      match r.dropWhile jsonWs with
      | ',' :: r2 => pArrElems f r2 (v :: acc)
      | ']' :: r2 => some (.arr (v :: acc).reverse, r2)
      | _ => none

/-- Parse the inside of a JSON object (after the opening brace). -/
def pObj : Nat → List Char → Option (Json × List Char)
  | 0, _ => none
  | f + 1, cs =>
    match cs.dropWhile jsonWs with
    | '\x7d' :: r => some (.obj [], r)
    | _ => pObjFields f cs []

/-- Parse object members separated by commas, ending at the closing brace. -/
def pObjFields : Nat → List Char → List (String × Json) → Option (Json × List Char)
  | 0, _, _ => none
  | f + 1, cs, acc =>
    match cs.dropWhile jsonWs with
    | '"' :: r =>
      match pStr (f + 1) r [] with
      | none => none
      | some (k, r1) =>
        match r1.dropWhile jsonWs with
        | ':' :: r2 =>
          match pVal f r2 with
          | none => none
          | some (v, r3) =>
            match r3.dropWhile jsonWs with
            | ',' :: r4 => pObjFields f r4 ((k, v) :: acc)
            | '\x7d' :: r4 => some (.obj ((k, v) :: acc).reverse, r4)
            | _ => none
        | _ => none
    | _ => none

end

/-- JS `JSON.parse`: parse the whole string (trailing whitespace allowed);
`none` models the thrown `SyntaxError`. -/
def jsonParse (s : String) : Option Json :=
  match pVal (4 * s.data.length + 8) s.data with
  | some (j, rest) => if rest.dropWhile jsonWs = [] then some j else none
  | none => none

/-- Field access `parsedObject.key` on a parsed JSON object.  JS object
literals keep the last of duplicate keys, hence the reversed lookup. -/
def jsonField (fields : List (String × Json)) (k : String) : Option Json :=
  fields.reverse.lookup k

/-! ## Content Normalizer — `extractText`

classification.js lines 806-814 (same body in diff-computation.js lines
100-108): parse the snapshot content as JSON and return its `textContent`
field, or fall back to the raw string when parsing throws.  The function is
total: the catch branch is the expected fallback, not an error.  `json.
textContent || ''` yields the string field when present (an empty string
stays empty) and `''` when the field is absent or falsy; a non-string truthy
`textContent` cannot be produced by the snapshot service's schema and is
modelled as the empty string. -/
def extractText (content : String) : String :=
  match jsonParse content with
  | some (Json.obj fields) =>
    match jsonField fields ("textContent") with
    | some (Json.str t) => t
    | _ => ""
  | some _ => ""
  | none => content

/-! ## Truncated-output salvage — `getLLMChangeSummary`

classification.js lines 896-935.  When the provider reports
`finish_reason === 'length'` the raw text is scanned with the regex
`/"summary"\s*:\s*"([^"]+)/`, the capture is trimmed, capped at 40000
characters (an ellipsis is appended past the cap) and a fixed placeholder is
used when nothing was recovered.  A complete but unparseable response is
replaced by a fixed error summary; a thrown provider call yields `null`. -/

/-- Try the regex `"summary"\s*:\s*"([^"]+)` anchored at the head of the
list; returns the (nonempty) capture group. -/
def matchSummaryAt (cs : List Char) : Option (List Char) :=
  if ("\"summary\"").data.isPrefixOf cs then
    match (cs.drop 9).dropWhile Char.isWhitespace with
    | ':' :: r2 =>
      match r2.dropWhile Char.isWhitespace with
      | '"' :: r4 =>
        let cap := r4.takeWhile (fun c => !(c == '"'))
        if cap.isEmpty then none else some cap
      | _ => none
    | _ => none
  else none

/-- JS `String.prototype.match` with the pattern above: leftmost match wins;
a failed attempt moves the scan one character to the right. -/
def scanSummary : List Char → Option (List Char)
  | [] => none
  | c :: rest =>
    match matchSummaryAt (c :: rest) with
    | some cap => some cap
    | none => scanSummary rest

/-- Fallback sentence used when no partial summary could be recovered
(classification.js line 921). -/
def truncationPlaceholder : String :=
  "Content changes detected, but the summary was too long to process completely."

/-- Substitute summary for a complete but unparseable response
(classification.js line 929). -/
def parseErrorSummary : String := "Error parsing change summary response."

/-- The `finish_reason === 'length'` recovery path (lines 901-922):
extract, trim, cap at 40000 characters, fall back to the placeholder. -/
def salvageTruncated (jsonString : String) : String :=
  match scanSummary jsonString.data with
  | none => truncationPlaceholder
  | some cap =>
    let extractedText := strTrim (String.mk cap)
    let extractedText :=
      if 40000 < strLen extractedText then strTake extractedText 40000 ++ "..."
      else extractedText
    if extractedText = "" then truncationPlaceholder else extractedText

/-- The diff object stored in `changes.diff`.  The code only ever reads the
`summary` member of the parsed provider response; `none` models a missing
(or non-string) member. -/
structure DiffObj where
  summary : Option String
deriving DecidableEq

/-- Read `parsed.summary` from a parsed provider response. -/
def diffObjOfJson : Json → DiffObj
  | Json.obj fields =>
    { summary :=
        match jsonField fields ("summary") with
        | some (Json.str s) => some s
        | _ => none }
  | _ => { summary := none }

/-- Response handling of `getLLMChangeSummary` (classification.js lines
896-935).  The argument is the outcome of the provider call:
`none` models a thrown call (line 932's catch returns `null`), and
`some (content, finishReason)` a delivered response. -/
def getLLMChangeSummary (resp : Option (String × String)) : Option DiffObj :=
  match resp with
  | none => none
  | some (jsonString, finishReason) =>
    if finishReason = "length" then some { summary := some (salvageTruncated jsonString) }
    else
      match jsonParse jsonString with
      | some j => some (diffObjOfJson j)
      | none => some { summary := some parseErrorSummary }

/-! ## Context Budgeter

classification.js lines 727-740 (identically lines 974-988 in `testDiff`):
`maxChars = Math.round((differ.context * 4 - 3000) / 3)` and each text body
longer than `maxChars` is head-truncated with `slice(0, maxChars)`.
`Math.round` is round-half-up, which is Mathlib's `round`. -/

/-- Model of `Math.round((context * 4 - 3000) / 3)` (line 730), in executable integer
form: `Math.round(x/3) = ⌊x/3 + 1/2⌋ = ⌊(2x+3)/6⌋`, and Lean's Euclidean `/`
on `Int` is the floor for the positive divisor 6.  `maxCharsFor_eq_round`
below proves this equal to the rounded rational of the source formula. -/
def maxCharsFor (context : Nat) : Int :=
  (2 * ((context : Int) * 4 - 3000) + 3) / 6

/-- Lines 733-740: truncate one text body to the character budget. -/
def budgetText (context : Nat) (s : String) : String :=
  if maxCharsFor context < (strLen s : Int) then jsSliceTo s (maxCharsFor context) else s

/-! ## Rate Governor

src/services/rate-limiter.js.  Process-wide state `lastRequestTime` maps
model names to the `Date.now()` taken right before each forwarded call.
A call for `model` entering at `entryTime` computes
`timeElapsed = entryTime - last` and sleeps `minDelayMs - timeElapsed` when
the elapsed time is below `minDelayMs = 60000 / rpm`.  Time is modelled in
rational milliseconds; `startSlack ≥ 0` is the scheduling slack between the
ideal wake-up (or the entry) and the second `Date.now()` read at line 53
(setTimeout never fires before its delay).  The run model is sequential,
exactly like the single-threaded await chain of the program. -/

/-- The per-model RPM configuration table (rate-limiter.js lines 6-10). -/
def RATE_LIMITS : List (String × Nat) :=
  [("gemini-2.0-flash", 15), ("gemini-2.0-flash-lite", 30)]

/-- Model of `rateLimits[model] || 15` (line 32): table lookup with default 15; a
falsy (zero) entry also defaults. -/
def lookupRpm (limits : List (String × Nat)) (model : String) : Nat :=
  match limits.lookup model with
  | some r => if r = 0 then 15 else r
  | none => 15

/-- Model of `minDelayMs = 60000 / rpm` (line 35). -/
def minDelayMs (limits : List (String × Nat)) (model : String) : ℚ :=
  60000 / (lookupRpm limits model : ℚ)

/-- One wrapped invocation: the model name, the `Date.now()` at entry
(line 43) and the nonnegative scheduling slack before the forwarded call. -/
structure CallEvent where
  model : String
  entryTime : ℚ
  startSlack : ℚ

/-- Model of `rateLimitState.lastRequestTime[model]`, 0 when unset (lines 38-40). -/
def stLast (st : List (String × ℚ)) (m : String) : ℚ := (st.lookup m).getD 0

/-- One pass through `create` (lines 30-57): returns the call-start time
(the `Date.now()` written to `lastRequestTime` at line 53, directly before
the forwarded request) and the updated state. -/
def govStep (limits : List (String × Nat)) (st : List (String × ℚ)) (e : CallEvent) :
    ℚ × List (String × ℚ) :=
  let minDelay := minDelayMs limits e.model
  let timeElapsed := e.entryTime - stLast st e.model
  let start :=
    if timeElapsed < minDelay then e.entryTime + (minDelay - timeElapsed) + e.startSlack
    else e.entryTime + e.startSlack
  (start, (e.model, start) :: st)

/-- Sequential run of the governor over a list of invocations; yields the
list of call-start times (one per invocation: no call is dropped). -/
def govRun (limits : List (String × Nat)) (st : List (String × ℚ)) :
    List CallEvent → List ℚ
  | [] => []
  | e :: rest =>
    let p := govStep limits st e
    p.1 :: govRun limits p.2 rest

/-- The pacing relation claimed for two governed calls: when they name the
same model, the later call starts at least `minDelayMs` after the earlier. -/
def paced (limits : List (String × Nat)) (p q : CallEvent × ℚ) : Prop :=
  p.1.model = q.1.model → p.2 + minDelayMs limits p.1.model ≤ q.2

/-! ## Data model

Rows as selected by the queries of classification.js: the phase-1 sources
query selects `id, url` (line 683), the snapshots query selects `id,
content` (line 695), and a `changes` row carries the columns used anywhere
in the file.  `classification`/`explanation` are `none` until the
classifier's update. -/

structure SourceRow where
  id : Nat
  url : String
deriving DecidableEq

structure SnapshotRow where
  id : Nat
  content : String
deriving DecidableEq

structure Change where
  id : Nat
  source_id : Nat
  snapshot_id1 : Nat
  snapshot_id2 : Nat
  diff : DiffObj
  classification : Option String
  explanation : Option String
  timestamp : Nat
deriving DecidableEq

/-- Does a `changes` row match the exact ordered snapshot pair? -/
def pairMatches (a b : Nat) (c : Change) : Bool :=
  c.snapshot_id1 == a && c.snapshot_id2 == b

/-- Number of rows of the table carrying the exact ordered pair. -/
def pairCount (l : List Change) (a b : Nat) : Nat :=
  (l.filter (pairMatches a b)).length

/-! ## Duplicate Guard — `diffExists`

classification.js lines 785-799: select any row with the exact ordered
(snapshot_id1, snapshot_id2) pair, limit 1; `data.length > 0` on success and
`false` when the read errors (so a failed read never suppresses the
subsequent insertion).  `err = true` models a query error. -/
def diffExists (err : Bool) (db : List Change) (snapshotId1 snapshotId2 : Nat) : Bool :=
  if err then false
  else decide (0 < ((db.filter (pairMatches snapshotId1 snapshotId2)).take 1).length)

/-! ## Diff Summarizer — `computeDiffs`

classification.js lines 679-776.  Per active source the code: queries the
two most recent snapshots (error → continue; fewer than two → skip),
destructures `[snapshotNew, snapshotOld]`, normalizes both contents,
budgets them against the model context, calls the provider, applies the
significance gate, consults the Duplicate Guard and inserts the row.  The
prior-summary query of lines 718-725 only contributes text to the prompt,
which the provider oracle (`llm` below) abstracts, so it carries no
observable state and is not reproduced.  The oracle takes the two budgeted
texts so that the normalization and budgeting steps feed the call exactly as
in the source. -/

/-- The `differ` configuration object ({model, context}, change-job.js
lines 23-36). -/
structure Differ where
  model : String
  context : Nat

/-- Per-source environment: results of the external effects touched while
processing one source.  `snapshotsResult = none` models a failed snapshots
query; `llm` is the provider-call oracle (`none` = the call threw);
`diffExistsErr` is whether the Duplicate Guard's read errors; `insertErr`
whether the insert errors; `rowId`/`now` are the store-assigned id and the
`new Date()` timestamp of the inserted row. -/
structure SourceEnv where
  snapshotsResult : Option (List SnapshotRow)
  llm : String → String → Option (String × String)
  diffExistsErr : Bool
  insertErr : Bool
  rowId : Nat
  now : Nat

/-- What happened for one source — each constructor is one `continue`/insert
arm of the loop body (lines 691-775). -/
inductive SourceOutcome where
  | queryError
  | tooFewSnapshots
  | noSummary
  | notSignificant
  | duplicate
  | insertFailed (row : Change)
  | inserted (row : Change)
deriving DecidableEq

/-- Does the outcome's code path reach the provider call at line 742?
`queryError` and `tooFewSnapshots` continue before it; every other arm is
taken after `getLLMChangeSummary` returned. -/
def callsProvider : SourceOutcome → Bool
  | SourceOutcome.queryError => false
  | SourceOutcome.tooFewSnapshots => false
  | _ => true

/-- The loop body for one source (lines 691-775), against the current
`changes` table `db`. -/
def processSource (differ : Differ) (env : SourceEnv) (db : List Change) (src : SourceRow) :
    SourceOutcome :=
  match env.snapshotsResult with
  | none => SourceOutcome.queryError
  | some snapshots =>
    match snapshots with
    | snapshotNew :: snapshotOld :: _ =>
      let textOld := budgetText differ.context (extractText snapshotOld.content)
      let textNew := budgetText differ.context (extractText snapshotNew.content)
      match getLLMChangeSummary (env.llm textOld textNew) with
      | none => SourceOutcome.noSummary
      | some diffJson =>
        match diffJson.summary with
        | none => SourceOutcome.noSummary
        | some s =>
          if s = "" then SourceOutcome.noSummary
          else if jsIncludes (jsToLower s) ("no significant changes") then
            SourceOutcome.notSignificant
          else if diffExists env.diffExistsErr db snapshotOld.id snapshotNew.id then
            SourceOutcome.duplicate
          else
            let row : Change :=
              { id := env.rowId, source_id := src.id,
                snapshot_id1 := snapshotOld.id, snapshot_id2 := snapshotNew.id,
                diff := { summary := some s }, classification := none,
                explanation := none, timestamp := env.now }
            if env.insertErr then SourceOutcome.insertFailed row
            else SourceOutcome.inserted row
    | _ => SourceOutcome.tooFewSnapshots

/-- Result of one run of the diff stage. -/
structure RunResult where
  changes : List Change
  inserted : List Change
  outcomes : List SourceOutcome

/-- The `for (const source of sources)` loop, threading the `changes`
table: a successful insert appends its row. -/
def computeDiffsLoop (differ : Differ) :
    List (SourceRow × SourceEnv) → List Change → RunResult
  | [], db => { changes := db, inserted := [], outcomes := [] }
  | (src, env) :: rest, db =>
    let oc := processSource differ env db src
    let db' := match oc with
      | SourceOutcome.inserted row => db ++ [row]
      | _ => db
    let r := computeDiffsLoop differ rest db'
    { changes := r.changes,
      inserted := (match oc with
        | SourceOutcome.inserted row => [row]
        | _ => []) ++ r.inserted,
      outcomes := oc :: r.outcomes }

/-- Environment of one whole diff-stage run: the result of the phase-initial
active-sources query (`none` models a query error, line 686), each source
paired with its per-source effect oracle, and the differ configuration. -/
structure DiffRunEnv where
  differ : Differ
  sourcesResult : Option (List (SourceRow × SourceEnv))

/-- Model of `computeDiffs` (lines 679-776): on a sources-query error return at once
having touched nothing; otherwise run the loop. -/
def computeDiffs (env : DiffRunEnv) (db : List Change) : RunResult :=
  match env.sourcesResult with
  | none => { changes := db, inserted := [], outcomes := [] }
  | some items => computeDiffsLoop env.differ items db

/-! ## Change Classifier — `classifyChanges`

classification.js lines 104-216 (the variant wired up by change-job.js).
Fetch the unclassified rows (modelled honestly as the `classification IS
NULL` filter over the table, with an error flag), fetch the source urls for
the referenced ids, then per row: require `diff.summary`, call the
provider, `JSON.parse` the content (a throw anywhere in the `try` is caught
and skips the row), require truthy `classification` and `explanation`, and
update the row by id.  The enum of the six admissible classification values
appears only inside the `json_schema` sent to the provider (lines 170-187);
the code itself never checks membership. -/

/-- The closed vocabulary of the `json_schema` enum (line 179). -/
def schemaClassifications : List String :=
  ["breaking", "security", "performance", "new_feature", "minor_fix", "other"]

/-- Read `result.classification` from the parsed response (a string field;
a non-string value cannot be produced under the provider schema and is
modelled as absent). -/
def classificationField (j : Json) : Option String :=
  match j with
  | Json.obj fields =>
    match jsonField fields ("classification") with
    | some (Json.str s) => some s
    | _ => none
  | _ => none

/-- Read `result.explanation` from the parsed response. -/
def explanationField (j : Json) : Option String :=
  match j with
  | Json.obj fields =>
    match jsonField fields ("explanation") with
    | some (Json.str s) => some s
    | _ => none
  | _ => none

/-- Environment of one classification run.  `changesQueryErr` /
`sourcesQueryErr` model the two phase-initial query errors (lines 111,
128); `sourceRows` is the result of the url lookup; `llm url summary change`
is the provider oracle (`none` = the call threw); `updateErr` is whether
the update for a given row id errors. -/
structure ClassifyEnv where
  changesQueryErr : Bool
  sourcesQueryErr : Bool
  sourceRows : List (Nat × String)
  llm : Option String → String → Change → Option String
  updateErr : Nat → Bool

/-- The loop body for one unclassified row (lines 135-215): returns the
updated table and the applied update, if any.  Every `continue`/catch arm
returns the table unchanged. -/
def classifyOne (env : ClassifyEnv) (sourceMap : List (Nat × String)) (db : List Change)
    (change : Change) : List Change × Option (Nat × String × String) :=
  let url := sourceMap.lookup change.source_id
  match change.diff.summary with
  | none => (db, none)
  | some diffSummary =>
    if diffSummary = "" then (db, none)
    else
      match env.llm url diffSummary change with
      | none => (db, none)
      | some content =>
        match jsonParse content with
        | none => (db, none)
        | some result =>
          match classificationField result, explanationField result with
          | some classification, some explanation =>
            if classification = "" ∨ explanation = "" then (db, none)
            else if env.updateErr change.id then (db, none)
            else
              (db.map (fun c =>
                 if c.id == change.id then
                   { c with classification := some classification,
                            explanation := some explanation }
                 else c),
               some (change.id, classification, explanation))
          | _, _ => (db, none)

/-- Iterate the classifier over the initially fetched unclassified rows,
threading the table and collecting the applied updates. -/
def classifyLoop (env : ClassifyEnv) (sourceMap : List (Nat × String)) :
    List Change → List Change → List Change × List (Nat × String × String)
  | [], db => (db, [])
  | change :: rest, db =>
    let r := classifyOne env sourceMap db change
    let rr := classifyLoop env sourceMap rest r.1
    (rr.1,
     (match r.2 with
      | some u => [u]
      | none => []) ++ rr.2)

/-- Model of `classifyChanges` (lines 104-216): early returns on a failed changes
fetch, an empty unclassified set, or a failed sources lookup; otherwise the
per-row loop.  The JS `Map` keeps the last duplicate source id, hence the
reversed lookup list. -/
def classifyChanges (env : ClassifyEnv) (db : List Change) :
    List Change × List (Nat × String × String) :=
  if env.changesQueryErr then (db, [])
  else
    let changes := db.filter (fun c => c.classification.isNone)
    if changes.isEmpty then (db, [])
    else if env.sourcesQueryErr then (db, [])
    else classifyLoop env env.sourceRows.reverse changes db

/-! ## Pipeline Driver — `main`

change-job.js lines 12-66: await `computeDiffs`, then `classifyChanges` on
whatever phase one committed; any exception escaping the phases is caught by
`main().catch` and exits the process with code 1.  Every modelled path of
the two phases returns normally (each internal failure is a logged
early-return or per-item skip), so on these paths the job completes and the
process exits with code 0. -/

structure JobEnv where
  diffEnv : DiffRunEnv
  classifyEnv : ClassifyEnv

structure JobResult where
  finalChanges : List Change
  inserted : List Change
  updates : List (Nat × String × String)
  exitCode : Nat

/-- The two-phase run of change-job.js. -/
def runJob (jenv : JobEnv) (db : List Change) : JobResult :=
  let r1 := computeDiffs jenv.diffEnv db
  let p2 := classifyChanges jenv.classifyEnv r1.changes
  { finalChanges := p2.1, inserted := r1.inserted, updates := p2.2, exitCode := 0 }

/-- The significance-gate reject condition of computeDiffs lines 743-750:
the provider result is `null`, its `summary` is missing or falsy (empty), or
it contains the phrase case-insensitively. -/
def badSummaryB (d : Option DiffObj) : Bool :=
  match d with
  | none => true
  | some dj =>
    match dj.summary with
    | none => true
    | some s => s == "" || jsIncludes (jsToLower s) ("no significant changes")

/-! ## Concrete fixtures used by the witness and counterexample theorems -/

def differW : Differ := { model := "llama-3.3-70b-instruct", context := 131000 }

def srcW : SourceRow := { id := 7, url := "https://example.com/api" }

/-- A source environment of a run that inserts: two snapshots, a delivered
significant summary, all store operations succeeding. -/
def envW : SourceEnv :=
  { snapshotsResult := some [{ id := 2, content := "\x7b\"textContent\":\"v2 api\"\x7d" },
                             { id := 1, content := "\x7b\"textContent\":\"v1 api\"\x7d" }],
    llm := fun _ _ => some ("\x7b\"summary\":\"Field X removed\"\x7d", "stop"),
    diffExistsErr := false, insertErr := false, rowId := 5, now := 3 }

/-- The row that the `envW` run inserts into an empty table. -/
def rowW : Change :=
  { id := 5, source_id := 7, snapshot_id1 := 1, snapshot_id2 := 2,
    diff := { summary := some "Field X removed" }, classification := none,
    explanation := none, timestamp := 3 }

/-- A pre-existing row for the (1, 2) snapshot pair, as left by a first run. -/
def rowExisting : Change :=
  { id := 4, source_id := 7, snapshot_id1 := 1, snapshot_id2 := 2,
    diff := { summary := some "Field X removed" }, classification := none,
    explanation := none, timestamp := 2 }

def denvW : DiffRunEnv := { differ := differW, sourcesResult := some [(srcW, envW)] }

/-- Variant of `envW` with a failing Duplicate Guard read. -/
def envGuardErr : SourceEnv := { envW with diffExistsErr := true }

/-- Variant of `envW` with only one snapshot returned. -/
def envFew : SourceEnv :=
  { envW with snapshotsResult := some [{ id := 2, content := "v2" }] }

/-- A diff-stage environment whose phase-initial sources query fails. -/
def denvErr : DiffRunEnv := { differ := differW, sourcesResult := none }

/-- A classification environment whose phase-initial changes query fails. -/
def cenvErr : ClassifyEnv :=
  { changesQueryErr := true, sourcesQueryErr := false, sourceRows := [],
    llm := fun _ _ _ => none, updateErr := fun _ => false }

def jenvW : JobEnv := { diffEnv := denvErr, classifyEnv := cenvErr }

/-- An unclassified row awaiting the classifier. -/
def changeC4 : Change :=
  { id := 1, source_id := 7, snapshot_id1 := 10, snapshot_id2 := 11,
    diff := { summary := some "Field X removed" }, classification := none,
    explanation := none, timestamp := 0 }

/-- A classification run whose provider responds with a classification
outside the six-value schema vocabulary. -/
def envC4 : ClassifyEnv :=
  { changesQueryErr := false, sourcesQueryErr := false,
    sourceRows := [(7, "https://example.com/api")],
    llm := fun _ _ _ => some ("\x7b\"classification\":\"bogus\",\"explanation\":\"e\"\x7d"),
    updateErr := fun _ => false }

/-- A classification run whose provider honours the schema. -/
def envC4w : ClassifyEnv :=
  { envC4 with
    llm := fun _ _ _ =>
      some ("\x7b\"classification\":\"breaking\",\"explanation\":\"removes a field\"\x7d") }

/-- Two governed calls for the 30-RPM model. -/
def eventsW : List CallEvent :=
  [{ model := "gemini-2.0-flash-lite", entryTime := 0, startSlack := 0 },
   { model := "gemini-2.0-flash-lite", entryTime := 2100, startSlack := 0 }]

/-! ## Helper lemmas -/

theorem strLen_append (a b : String) : strLen (a ++ b) = strLen a + strLen b := by
  simp [strLen, String.data_append]

theorem strLen_take (s : String) (n : Nat) : strLen (strTake s n) = min n (strLen s) := by
  simp [strTake, strLen, List.length_take]

/-- The executable budgeting constant equals the source formula
`Math.round((context * 4 - 3000) / 3)` read as Mathlib's `round` over ℚ. -/
theorem maxCharsFor_eq_round (context : Nat) :
    maxCharsFor context = round ((((context : ℚ)) * 4 - 3000) / 3) := by
  rw [round_eq]
  have h : (((context : ℚ)) * 4 - 3000) / 3 + 1 / 2
      = ((2 * ((context : Int) * 4 - 3000) + 3 : ℤ) : ℚ) / ((6 : ℕ) : ℚ) := by
    push_cast
    ring
  rw [h, Rat.floor_intCast_div_natCast]
  norm_num [maxCharsFor]

theorem budgetText_of_long (context : Nat) (s : String) (h0 : 0 ≤ maxCharsFor context)
    (hlt : maxCharsFor context < (strLen s : Int)) :
    budgetText context s = strTake s (maxCharsFor context).toNat ∧
    (strLen (budgetText context s) : Int) = maxCharsFor context := by
  have hb : budgetText context s = strTake s (maxCharsFor context).toNat := by
    unfold budgetText jsSliceTo
    rw [if_pos hlt, if_pos h0]
  refine ⟨hb, ?_⟩
  rw [hb, strLen_take]
  omega

theorem budgetText_of_short (context : Nat) (s : String)
    (hle : (strLen s : Int) ≤ maxCharsFor context) :
    budgetText context s = s := by
  unfold budgetText
  rw [if_neg (by omega)]

/-- C8: the Context Budgeter computes
`maxChars = round((contextTokens * 4 - 3000) / 3)`; a text body strictly
longer than `maxChars` is truncated to exactly its first `maxChars`
characters, a text body of length at most `maxChars` passes through
unchanged, and with `contextTokens = 1000000` a 5,000,000-character text is
truncated to exactly `round((1000000*4-3000)/3) = 1332333` characters. -/
theorem spec_c8 :
    (∀ context s, 0 ≤ maxCharsFor context →
       (maxCharsFor context < (strLen s : Int) →
          budgetText context s = strTake s (maxCharsFor context).toNat ∧
          (strLen (budgetText context s) : Int) = maxCharsFor context) ∧
       ((strLen s : Int) ≤ maxCharsFor context → budgetText context s = s)) ∧
    (∀ context, maxCharsFor context = round ((((context : ℚ)) * 4 - 3000) / 3)) ∧
    maxCharsFor 1000000 = 1332333 ∧
    (∀ s, strLen s = 5000000 → strLen (budgetText 1000000 s) = 1332333) := by
  have hc : maxCharsFor 1000000 = 1332333 := by decide
  refine ⟨?_, maxCharsFor_eq_round, hc, ?_⟩
  · intro context s h0
    exact ⟨budgetText_of_long context s h0, budgetText_of_short context s⟩
  · intro s hs
    have h := budgetText_of_long 1000000 s (by rw [hc]; omega) (by rw [hc, hs]; omega)
    omega

/-- Witness for C8 at a concrete input: with `context = 751` the budget is
`round(4/3) = 1` character and `"abc"` is head-truncated to that length. -/
theorem spec_c8_witness :
    maxCharsFor 751 = 1 ∧
    (budgetText 751 ("abc") = strTake ("abc") (maxCharsFor 751).toNat ∧
     (strLen (budgetText 751 ("abc")) : Int) = maxCharsFor 751) :=
  ⟨by decide, (spec_c8.1 751 ("abc") (by decide)).1 (by decide)⟩

/-- C9: the Content Normalizer never throws (it is a total function whose
catch branch is the fallback): on a successful parse it returns the object's
`textContent` string (empty when the field is absent), on parse failure the
input unchanged; concretely a textContent wrapper yields its payload and a
non-JSON string passes through. -/
theorem spec_c9 :
    (∀ content, jsonParse content = none → extractText content = content) ∧
    (∀ content fields t, jsonParse content = some (Json.obj fields) →
        jsonField fields ("textContent") = some (Json.str t) → extractText content = t) ∧
    (∀ content fields, jsonParse content = some (Json.obj fields) →
        jsonField fields ("textContent") = none → extractText content = "") ∧
    extractText ("\x7b\"textContent\":\"hello\"\x7d") = "hello" ∧
    extractText ("plain text") = "plain text" := by
  refine ⟨?_, ?_, ?_, by rfl, by rfl⟩
  · intro content h
    unfold extractText
    rw [h]
  · intro content fields t h1 h2
    simp only [extractText, h1, h2]
  · intro content fields h1 h2
    simp only [extractText, h1, h2]

/-- Witness for C9: the fallback path at the concrete non-JSON input. -/
theorem spec_c9_witness : extractText ("plain text") = "plain text" :=
  spec_c9.1 ("plain text") rfl

/-- C10: when a phase-initial store query fails — the sources fetch of the
diff stage, or the unclassified-changes fetch or the source-url lookup of
the classification stage — that phase returns at once with the table
untouched and nothing inserted or updated, no exception escapes, and the
job still completes with exit code 0 (the non-zero exit of change-job.js
line 65 fires only for exceptions escaping the phases, which these modelled
early-return paths never throw). -/
theorem spec_c10 :
    ∀ (jenv : JobEnv) (db : List Change),
      (jenv.diffEnv.sourcesResult = none →
         computeDiffs jenv.diffEnv db = { changes := db, inserted := [], outcomes := [] }) ∧
      (∀ (env2 : ClassifyEnv) (db2 : List Change), env2.changesQueryErr = true →
         classifyChanges env2 db2 = (db2, [])) ∧
      (∀ (env2 : ClassifyEnv) (db2 : List Change), env2.sourcesQueryErr = true →
         classifyChanges env2 db2 = (db2, [])) ∧
      (runJob jenv db).exitCode = 0 := by
  intro jenv db
  refine ⟨?_, ?_, ?_, rfl⟩
  · intro h
    unfold computeDiffs
    rw [h]
  · intro env2 db2 h
    simp [classifyChanges, h]
  · intro env2 db2 h
    simp only [classifyChanges, h]
    split_ifs <;> simp

/-- Witness for C10: the concrete job whose both phase-initial queries
fail completes with exit code 0, having touched nothing. -/
theorem spec_c10_witness :
    computeDiffs jenvW.diffEnv [] = { changes := [], inserted := [], outcomes := [] } ∧
    classifyChanges jenvW.classifyEnv [] = ([], []) ∧
    (runJob jenvW []).exitCode = 0 :=
  ⟨(spec_c10 jenvW []).1 rfl, (spec_c10 jenvW []).2.1 jenvW.classifyEnv [] rfl,
   (spec_c10 jenvW []).2.2.2⟩

theorem diffExists_false_iff (db : List Change) (a b : Nat) :
    diffExists false db a b = true ↔ 0 < pairCount db a b := by
  unfold diffExists pairCount
  simp [List.length_take]

/-- C6: the Duplicate Guard returns `true` exactly when its read succeeds
and the table holds a row with that exact ordered pair; every failing read
returns `false`, and a failing read never produces the duplicate-skip arm in
the Diff Summarizer (so a read failure never suppresses an insertion). -/
theorem spec_c6 :
    (∀ db a b, diffExists false db a b = true ↔ 0 < pairCount db a b) ∧
    (∀ db a b, diffExists true db a b = false) ∧
    (∀ differ env db src, env.diffExistsErr = true →
       processSource differ env db src ≠ SourceOutcome.duplicate) := by
  refine ⟨diffExists_false_iff, fun db a b => rfl, ?_⟩
  intro differ env db src h
  unfold processSource
  rw [h]
  repeat' split
  all_goals try simp_all [diffExists]
  all_goals repeat' split
  all_goals simp_all

/-- Witness for C6: a failing read reports `false` on a concrete table, and
the concrete run with a failing Duplicate Guard read does not take the
duplicate-skip arm. -/
theorem spec_c6_witness :
    diffExists true [rowExisting] 1 2 = false ∧
    processSource differW envGuardErr [rowExisting] srcW ≠ SourceOutcome.duplicate :=
  ⟨spec_c6.2.1 [rowExisting] 1 2, spec_c6.2.2 differW envGuardErr [rowExisting] srcW rfl⟩

/-- C7: a source whose snapshot query returns fewer than two snapshots is
skipped: no provider call is made, no row is inserted, and this is no error —
the loop continues with the remaining sources. -/
theorem spec_c7 :
    ∀ (differ : Differ) (env : SourceEnv) (db : List Change) (src : SourceRow)
      (l : List SnapshotRow) (rest : List (SourceRow × SourceEnv)),
      env.snapshotsResult = some l → l.length < 2 →
      processSource differ env db src = SourceOutcome.tooFewSnapshots ∧
      callsProvider (processSource differ env db src) = false ∧
      (∀ row, processSource differ env db src ≠ SourceOutcome.inserted row) ∧
      computeDiffsLoop differ ((src, env) :: rest) db =
        { changes := (computeDiffsLoop differ rest db).changes,
          inserted := (computeDiffsLoop differ rest db).inserted,
          outcomes := SourceOutcome.tooFewSnapshots :: (computeDiffsLoop differ rest db).outcomes } := by
  intro differ env db src l rest h1 h2
  have hp : processSource differ env db src = SourceOutcome.tooFewSnapshots := by
    unfold processSource
    rw [h1]
    rcases l with _ | ⟨x, _ | ⟨y, tl⟩⟩
    · rfl
    · rfl
    · simp at h2
      omega
  refine ⟨hp, by rw [hp]; rfl, by intro row; rw [hp]; simp, ?_⟩
  simp [computeDiffsLoop, hp]

/-- Witness for C7 at the concrete single-snapshot environment. -/
theorem spec_c7_witness :
    processSource differW envFew [] srcW = SourceOutcome.tooFewSnapshots ∧
    callsProvider (processSource differW envFew [] srcW) = false :=
  ⟨(spec_c7 differW envFew [] srcW _ [] rfl (by decide)).1,
   (spec_c7 differW envFew [] srcW _ [] rfl (by decide)).2.1⟩

/-- C5: response handling never fails the run.  A thrown provider call
yields `null` and the source is skipped with the `noSummary` arm; a
length-truncated completion is salvaged by the tolerant
`"summary" : "..."` scan — the trimmed capture is returned, capped at its
first 40000 characters (with an appended ellipsis), the fixed placeholder
standing in when nothing (or only whitespace) was captured; the whole
salvaged summary never exceeds 40003 characters; and a complete but
unparseable response is replaced by the fixed parse-error summary. -/
theorem spec_c5 :
    (getLLMChangeSummary none = none) ∧
    (∀ (differ : Differ) (env : SourceEnv) (db : List Change) (src : SourceRow)
       snapshotNew snapshotOld (rest : List SnapshotRow),
       env.snapshotsResult = some (snapshotNew :: snapshotOld :: rest) →
       env.llm (budgetText differ.context (extractText snapshotOld.content))
         (budgetText differ.context (extractText snapshotNew.content)) = none →
       processSource differ env db src = SourceOutcome.noSummary) ∧
    (∀ content, getLLMChangeSummary (some (content, "length")) =
       some { summary := some (salvageTruncated content) }) ∧
    (∀ content, scanSummary content.data = none →
       salvageTruncated content = truncationPlaceholder) ∧
    (∀ content cap, scanSummary content.data = some cap →
       (40000 < strLen (strTrim (String.mk cap)) →
          salvageTruncated content = strTake (strTrim (String.mk cap)) 40000 ++ "...") ∧
       (strLen (strTrim (String.mk cap)) ≤ 40000 → strTrim (String.mk cap) ≠ "" →
          salvageTruncated content = strTrim (String.mk cap)) ∧
       (strTrim (String.mk cap) = "" →
          salvageTruncated content = truncationPlaceholder)) ∧
    (∀ content, strLen (salvageTruncated content) ≤ 40003) ∧
    (∀ content fr, fr ≠ "length" → jsonParse content = none →
       getLLMChangeSummary (some (content, fr)) = some { summary := some parseErrorSummary }) := by
  refine ⟨rfl, ?_, ?_, ?_, ?_, ?_, ?_⟩
  · intro differ env db src snapshotNew snapshotOld rest h1 h2
    unfold processSource
    rw [h1]
    simp only [h2]
    rfl
  · intro content
    simp [getLLMChangeSummary]
  · intro content h
    unfold salvageTruncated
    rw [h]
  · intro content cap h
    unfold salvageTruncated
    rw [h]
    refine ⟨?_, ?_, ?_⟩
    · intro hgt
      have hne : strTake (strTrim (String.mk cap)) 40000 ++ "..." ≠ "" := by
        intro hh
        have := congrArg strLen hh
        rw [strLen_append] at this
        simp [strLen] at this
      simp only [if_pos hgt, if_neg hne]
    · intro hle ht
      simp only [if_neg (by omega : ¬ 40000 < strLen (strTrim (String.mk cap))), if_neg ht]
    · intro ht
      have hlen : strLen (strTrim (String.mk cap)) = 0 := by rw [ht]; rfl
      simp only [if_neg (by omega : ¬ 40000 < strLen (strTrim (String.mk cap))), if_pos ht]
  · intro content
    unfold salvageTruncated
    cases h : scanSummary content.data with
    | none => decide
    | some cap =>
      simp only []
      split_ifs with h1 h2 h3
      · decide
      · rw [strLen_append, strLen_take]
        have : strLen ("...") = 3 := rfl
        rw [this]
        omega
      · decide
      · omega
  · intro content fr h1 h2
    simp [getLLMChangeSummary, h2, if_neg h1]

/-- Witness for C5: on the concrete truncated response the length path
returns the scanned partial summary, and a scanless response falls back to
the placeholder. -/
theorem spec_c5_witness :
    getLLMChangeSummary (some ("\x7b\"summary\": \"hello wor", "length")) =
      some { summary := some (salvageTruncated ("\x7b\"summary\": \"hello wor")) } ∧
    salvageTruncated ("garbage") = truncationPlaceholder ∧
    getLLMChangeSummary none = none :=
  ⟨spec_c5.2.2.1 ("\x7b\"summary\": \"hello wor"),
   spec_c5.2.2.2.1 ("garbage") rfl, spec_c5.1⟩

theorem pairCount_nil (a b : Nat) : pairCount [] a b = 0 := rfl

theorem pairCount_append (l1 l2 : List Change) (a b : Nat) :
    pairCount (l1 ++ l2) a b = pairCount l1 a b + pairCount l2 a b := by
  unfold pairCount
  rw [List.filter_append, List.length_append]

theorem pairCount_cons (c : Change) (l : List Change) (a b : Nat) :
    pairCount (c :: l) a b = (if pairMatches a b c then 1 else 0) + pairCount l a b := by
  unfold pairCount
  rw [List.filter_cons]
  split_ifs
  · simp only [List.length_cons]
    omega
  · omega

/-- Inversion of the loop body: an inserted (or insert-attempted) row passed
the significance gate and, when the Duplicate Guard read succeeded, its exact
pair was absent from the table at the time of the check. -/
theorem processSource_insert_inv (differ : Differ) (env : SourceEnv) (db : List Change)
    (src : SourceRow) (row : Change)
    (h : processSource differ env db src = SourceOutcome.inserted row ∨
         processSource differ env db src = SourceOutcome.insertFailed row) :
    ∃ s, row.diff.summary = some s ∧ s ≠ "" ∧
      jsIncludes (jsToLower s) ("no significant changes") = false ∧
      (env.diffExistsErr = false → pairCount db row.snapshot_id1 row.snapshot_id2 = 0) := by
  unfold processSource at h
  cases henv : env.snapshotsResult with
  | none =>
    rw [henv] at h
    rcases h with h | h <;> simp at h
  | some snapshots =>
    rw [henv] at h
    rcases snapshots with _ | ⟨sNew, _ | ⟨sOld, tl⟩⟩
    · rcases h with h | h <;> simp at h
    · rcases h with h | h <;> simp at h
    dsimp only at h
    cases hg : getLLMChangeSummary (env.llm (budgetText differ.context (extractText sOld.content))
        (budgetText differ.context (extractText sNew.content))) with
    | none =>
      rw [hg] at h
      rcases h with h | h <;> simp at h
    | some dj =>
      rw [hg] at h
      dsimp only at h
      cases hsum : dj.summary with
      | none =>
        rw [hsum] at h
        rcases h with h | h <;> simp at h
      | some s =>
        rw [hsum] at h
        dsimp only at h
        by_cases hempty : s = ""
        · rw [if_pos hempty] at h
          rcases h with h | h <;> simp at h
        rw [if_neg hempty] at h
        by_cases hinc : jsIncludes (jsToLower s) ("no significant changes") = true
        · rw [if_pos hinc] at h
          rcases h with h | h <;> simp at h
        rw [if_neg hinc] at h
        by_cases hdup : diffExists env.diffExistsErr db sOld.id sNew.id = true
        · rw [if_pos hdup] at h
          rcases h with h | h <;> simp at h
        rw [if_neg hdup] at h
        have hrow : row = { id := env.rowId, source_id := src.id, snapshot_id1 := sOld.id, snapshot_id2 := sNew.id, diff := { summary := some s }, classification := none, explanation := none, timestamp := env.now } := by
          by_cases hins : env.insertErr = true
          · rw [if_pos hins] at h
            rcases h with h | h
            · simp at h
            · simp at h
              exact h.symm
          · rw [if_neg hins] at h
            rcases h with h | h
            · simp at h
              exact h.symm
            · simp at h
        refine ⟨s, by rw [hrow], hempty, by simpa using hinc, ?_⟩
        intro herr
        rw [hrow]
        show pairCount db sOld.id sNew.id = 0
        rw [herr] at hdup
        have h3 : ¬ (0 < pairCount db sOld.id sNew.id) := by
          rw [← diffExists_false_iff]
          simpa using hdup
        omega

/-- When every Duplicate Guard read of the run succeeds, a pair already
present in the table is never inserted again by the loop. -/
theorem loop_no_new_pair (differ : Differ) :
    ∀ (items : List (SourceRow × SourceEnv)) (db : List Change) (a b : Nat),
      (∀ p ∈ items, (p.2 : SourceEnv).diffExistsErr = false) →
      0 < pairCount db a b →
      pairCount (computeDiffsLoop differ items db).inserted a b = 0 := by
  intro items
  induction items with
  | nil =>
    intro db a b _ _
    simp [computeDiffsLoop, pairCount_nil]
  | cons p rest ih =>
    intro db a b hall hpos
    obtain ⟨src, env⟩ := p
    have henv : env.diffExistsErr = false := hall _ (List.mem_cons_self _ _)
    have hrest : ∀ q ∈ rest, (q.2 : SourceEnv).diffExistsErr = false :=
      fun q hq => hall q (List.mem_cons_of_mem _ hq)
    cases hoc : processSource differ env db src with
    | inserted row =>
      obtain ⟨s, _, _, _, hpairfree⟩ :=
        processSource_insert_inv differ env db src row (Or.inl hoc)
      have hrow0 : pairCount db row.snapshot_id1 row.snapshot_id2 = 0 := hpairfree henv
      have hhead : pairMatches a b row = false := by
        cases hx : pairMatches a b row
        · rfl
        · exfalso
          unfold pairMatches at hx
          simp at hx
          obtain ⟨h1, h2⟩ := hx
          rw [h1, h2] at hrow0
          omega
      have hdbpos : 0 < pairCount (db ++ [row]) a b := by
        rw [pairCount_append]
        omega
      have htail := ih (db ++ [row]) a b hrest hdbpos
      simp only [computeDiffsLoop, hoc]
      have hsingle : pairCount [row] a b = 0 := by
        rw [pairCount_cons, hhead]
        simp [pairCount_nil]
      rw [pairCount_append, hsingle, htail]
    | queryError =>
      simp only [computeDiffsLoop, hoc]
      simpa using ih db a b hrest hpos
    | tooFewSnapshots =>
      simp only [computeDiffsLoop, hoc]
      simpa using ih db a b hrest hpos
    | noSummary =>
      simp only [computeDiffsLoop, hoc]
      simpa using ih db a b hrest hpos
    | notSignificant =>
      simp only [computeDiffsLoop, hoc]
      simpa using ih db a b hrest hpos
    | duplicate =>
      simp only [computeDiffsLoop, hoc]
      simpa using ih db a b hrest hpos
    | insertFailed row =>
      simp only [computeDiffsLoop, hoc]
      simpa using ih db a b hrest hpos

theorem loop_at_most_one (differ : Differ) :
    ∀ (items : List (SourceRow × SourceEnv)) (db : List Change) (a b : Nat),
      (∀ p ∈ items, (p.2 : SourceEnv).diffExistsErr = false) →
      pairCount (computeDiffsLoop differ items db).inserted a b ≤ 1 := by
  intro items
  induction items with
  | nil =>
    intro db a b _
    simp [computeDiffsLoop, pairCount_nil]
  | cons p rest ih =>
    intro db a b hall
    obtain ⟨src, env⟩ := p
    have hrest : ∀ q ∈ rest, (q.2 : SourceEnv).diffExistsErr = false :=
      fun q hq => hall q (List.mem_cons_of_mem _ hq)
    cases hoc : processSource differ env db src with
    | inserted row =>
      simp only [computeDiffsLoop, hoc]
      rw [pairCount_append]
      cases hx : pairMatches a b row with
      | false =>
        have hsingle : pairCount [row] a b = 0 := by
          rw [pairCount_cons, hx]
          simp [pairCount_nil]
        rw [hsingle]
        simpa using ih (db ++ [row]) a b hrest
      | true =>
        have hsingle : pairCount [row] a b = 1 := by
          rw [pairCount_cons, hx]
          simp [pairCount_nil]
        have hpos : 0 < pairCount (db ++ [row]) a b := by
          rw [pairCount_append, hsingle]
          omega
        have htail := loop_no_new_pair differ rest (db ++ [row]) a b hrest hpos
        rw [hsingle, htail]
    | queryError =>
      simp only [computeDiffsLoop, hoc]
      simpa using ih db a b hrest
    | tooFewSnapshots =>
      simp only [computeDiffsLoop, hoc]
      simpa using ih db a b hrest
    | noSummary =>
      simp only [computeDiffsLoop, hoc]
      simpa using ih db a b hrest
    | notSignificant =>
      simp only [computeDiffsLoop, hoc]
      simpa using ih db a b hrest
    | duplicate =>
      simp only [computeDiffsLoop, hoc]
      simpa using ih db a b hrest
    | insertFailed row =>
      simp only [computeDiffsLoop, hoc]
      simpa using ih db a b hrest

/-- C1: within one run of the Diff Summarizer whose Duplicate Guard reads
all succeed, at most one Change row is inserted per exact ordered
(snapshotId1, snapshotId2) pair, and no row is inserted for a pair already
present in the table — hence a second run over the same two snapshots,
with the first run's row present and the guard read succeeding, inserts
nothing for that pair: re-running with no new snapshots is idempotent on
the changes collection. -/
theorem spec_c1 :
    ∀ (denv : DiffRunEnv) (db : List Change) (a b : Nat)
      (items : List (SourceRow × SourceEnv)),
      denv.sourcesResult = some items →
      (∀ p ∈ items, (p.2 : SourceEnv).diffExistsErr = false) →
      (0 < pairCount db a b → pairCount (computeDiffs denv db).inserted a b = 0) ∧
      pairCount (computeDiffs denv db).inserted a b ≤ 1 := by
  intro denv db a b items hs hall
  unfold computeDiffs
  rw [hs]
  exact ⟨fun hpos => loop_no_new_pair denv.differ items db a b hall hpos,
         loop_at_most_one denv.differ items db a b hall⟩

/-- Witness for C1: the concrete second run over the same two snapshots —
the pair (1, 2) row from the first run already stored, the guard read
succeeding — inserts no row for the pair. -/
theorem spec_c1_witness :
    pairCount (computeDiffs denvW [rowExisting]).inserted 1 2 = 0 ∧
    pairCount (computeDiffs denvW [rowExisting]).inserted 1 2 ≤ 1 :=
  ⟨(spec_c1 denvW [rowExisting] 1 2 [(srcW, envW)] rfl (by decide)).1 (by decide),
   (spec_c1 denvW [rowExisting] 1 2 [(srcW, envW)] rfl (by decide)).2⟩

/-- Every row the loop inserts carries a non-empty summary that does not
contain the phrase case-insensitively. -/
theorem loop_inserted_summary (differ : Differ) :
    ∀ (items : List (SourceRow × SourceEnv)) (db : List Change) (row : Change),
      row ∈ (computeDiffsLoop differ items db).inserted →
      ∃ s, row.diff.summary = some s ∧ s ≠ "" ∧
        jsIncludes (jsToLower s) ("no significant changes") = false := by
  intro items
  induction items with
  | nil =>
    intro db row h
    simp [computeDiffsLoop] at h
  | cons p rest ih =>
    intro db row h
    obtain ⟨src, env⟩ := p
    cases hoc : processSource differ env db src with
    | inserted row0 =>
      simp only [computeDiffsLoop, hoc] at h
      rcases List.mem_append.mp h with h1 | h2
      · have hr : row = row0 := by simpa using h1
        subst hr
        obtain ⟨s, hs1, hs2, hs3, _⟩ :=
          processSource_insert_inv differ env db src row (Or.inl hoc)
        exact ⟨s, hs1, hs2, hs3⟩
      · exact ih (db ++ [row0]) row h2
    | queryError =>
      simp only [computeDiffsLoop, hoc] at h
      exact ih db row (by simpa using h)
    | tooFewSnapshots =>
      simp only [computeDiffsLoop, hoc] at h
      exact ih db row (by simpa using h)
    | noSummary =>
      simp only [computeDiffsLoop, hoc] at h
      exact ih db row (by simpa using h)
    | notSignificant =>
      simp only [computeDiffsLoop, hoc] at h
      exact ih db row (by simpa using h)
    | duplicate =>
      simp only [computeDiffsLoop, hoc] at h
      exact ih db row (by simpa using h)
    | insertFailed row0 =>
      simp only [computeDiffsLoop, hoc] at h
      exact ih db row (by simpa using h)

/-- When the provider result fails the significance gate, the loop body
takes one of the two skip arms before the Duplicate Guard and the insert. -/
theorem processSource_gate_reject (differ : Differ) (env : SourceEnv) (db : List Change)
    (src : SourceRow) (sNew sOld : SnapshotRow) (tl : List SnapshotRow)
    (h1 : env.snapshotsResult = some (sNew :: sOld :: tl))
    (h2 : badSummaryB (getLLMChangeSummary (env.llm
        (budgetText differ.context (extractText sOld.content))
        (budgetText differ.context (extractText sNew.content)))) = true) :
    processSource differ env db src = SourceOutcome.noSummary ∨
    processSource differ env db src = SourceOutcome.notSignificant := by
  unfold processSource
  rw [h1]
  dsimp only
  cases hg : getLLMChangeSummary (env.llm (budgetText differ.context (extractText sOld.content))
      (budgetText differ.context (extractText sNew.content))) with
  | none => left; rfl
  | some dj =>
    rw [hg] at h2
    dsimp only
    cases hsum : dj.summary with
    | none =>
      left
      rfl
    | some s =>
      dsimp only
      unfold badSummaryB at h2
      dsimp only at h2
      rw [hsum] at h2
      dsimp only at h2
      rcases (Bool.or_eq_true _ _).mp h2 with hb | hb
      · have hs : s = "" := by simpa using hb
        left
        rw [if_pos hs]
      · by_cases hs : s = ""
        · left
          rw [if_pos hs]
        · right
          rw [if_neg hs, if_pos hb]

/-- C2: every Change row the Diff Summarizer stores carries a non-empty
`diff.summary` that does not case-insensitively contain "no significant
changes"; and for a source whose provider result has a missing or empty
summary or contains that phrase, no insert (not even a failed attempt)
happens for that source. -/
theorem spec_c2 :
    (∀ (denv : DiffRunEnv) (db : List Change) (row : Change),
       row ∈ (computeDiffs denv db).inserted →
       ∃ s, row.diff.summary = some s ∧ s ≠ "" ∧
         jsIncludes (jsToLower s) ("no significant changes") = false) ∧
    (∀ (differ : Differ) (env : SourceEnv) (db : List Change) (src : SourceRow)
       (sNew sOld : SnapshotRow) (tl : List SnapshotRow),
       env.snapshotsResult = some (sNew :: sOld :: tl) →
       badSummaryB (getLLMChangeSummary (env.llm
          (budgetText differ.context (extractText sOld.content))
          (budgetText differ.context (extractText sNew.content)))) = true →
       ∀ row, processSource differ env db src ≠ SourceOutcome.inserted row ∧
              processSource differ env db src ≠ SourceOutcome.insertFailed row) := by
  constructor
  · intro denv db row h
    unfold computeDiffs at h
    cases hs : denv.sourcesResult with
    | none =>
      rw [hs] at h
      simp at h
    | some items =>
      rw [hs] at h
      exact loop_inserted_summary denv.differ items db row h
  · intro differ env db src sNew sOld tl h1 h2 row
    rcases processSource_gate_reject differ env db src sNew sOld tl h1 h2 with hg | hg <;>
      rw [hg] <;> exact ⟨by simp, by simp⟩

/-- Witness for C2: the row inserted by the concrete run satisfies the
stored-summary invariant. -/
theorem spec_c2_witness :
    ∃ s, rowW.diff.summary = some s ∧ s ≠ "" ∧
      jsIncludes (jsToLower s) ("no significant changes") = false :=
  spec_c2.1 denvW [] rowW (by decide)

/-- Inversion of the classifier's loop body: an applied update carries the
truthy classification and explanation strings parsed verbatim from the
provider's response — no further check is made on them. -/
theorem classifyOne_update_inv (env : ClassifyEnv) (sourceMap : List (Nat × String))
    (db : List Change) (change : Change) (u : Nat × String × String)
    (h : (classifyOne env sourceMap db change).2 = some u) :
    u.2.1 ≠ "" ∧ u.2.2 ≠ "" ∧
    ∃ dsum content j,
      change.diff.summary = some dsum ∧
      env.llm (sourceMap.lookup change.source_id) dsum change = some content ∧
      jsonParse content = some j ∧
      classificationField j = some u.2.1 ∧ explanationField j = some u.2.2 := by
  unfold classifyOne at h
  cases hsum : change.diff.summary with
  | none =>
    rw [hsum] at h
    simp at h
  | some dsum =>
    rw [hsum] at h
    dsimp only at h
    by_cases hds : dsum = ""
    · rw [if_pos hds] at h
      simp at h
    rw [if_neg hds] at h
    cases hllm : env.llm (sourceMap.lookup change.source_id) dsum change with
    | none =>
      rw [hllm] at h
      simp at h
    | some content =>
      rw [hllm] at h
      dsimp only at h
      cases hp : jsonParse content with
      | none =>
        rw [hp] at h
        simp at h
      | some result =>
        rw [hp] at h
        dsimp only at h
        cases hc : classificationField result with
        | none =>
          rw [hc] at h
          simp at h
        | some classification =>
          rw [hc] at h
          cases he : explanationField result with
          | none =>
            rw [he] at h
            simp at h
          | some explanation =>
            rw [he] at h
            dsimp only at h
            by_cases hv : classification = "" ∨ explanation = ""
            · rw [if_pos hv] at h
              simp at h
            rw [if_neg hv] at h
            by_cases hu : env.updateErr change.id = true
            · rw [if_pos hu] at h
              simp at h
            rw [if_neg hu] at h
            simp at h
            subst h
            push_neg at hv
            exact ⟨hv.1, hv.2, dsum, content, result, rfl, hllm, hp, hc, he⟩

/-- Update-list invariant of the classifier loop. -/
theorem classifyLoop_update_inv (env : ClassifyEnv) (sourceMap : List (Nat × String)) :
    ∀ (pending db : List Change) (u : Nat × String × String),
      u ∈ (classifyLoop env sourceMap pending db).2 →
      u.2.1 ≠ "" ∧ u.2.2 ≠ "" ∧
      ∃ dsum change content j,
        env.llm (sourceMap.lookup change.source_id) dsum change = some content ∧
        jsonParse content = some j ∧
        classificationField j = some u.2.1 ∧ explanationField j = some u.2.2 := by
  intro pending
  induction pending with
  | nil =>
    intro db u h
    simp [classifyLoop] at h
  | cons change rest ih =>
    intro db u h
    simp only [classifyLoop] at h
    rcases List.mem_append.mp h with h1 | h1
    · cases hone : (classifyOne env sourceMap db change).2 with
      | none =>
        rw [hone] at h1
        simp at h1
      | some u0 =>
        rw [hone] at h1
        have hu : u = u0 := by simpa using h1
        subst hu
        obtain ⟨ha, hb, dsum, content, j, _, hllm, hp, hc, he⟩ :=
          classifyOne_update_inv env sourceMap db change u hone
        exact ⟨ha, hb, dsum, change, content, j, hllm, hp, hc, he⟩
    · exact ih (classifyOne env sourceMap db change).1 u h1

/-- C4, as amended: the classifier persists exactly the truthy
classification/explanation strings parsed from the provider response —
responses with a missing or empty field are rejected (row left
unclassified), but the classifier performs no vocabulary check of its own:
the six-value enumeration lives only in the provider-side structured-output
schema, so stored classifications lie in `schemaClassifications` exactly
when every provider response conforms to it. -/
theorem spec_c4 :
    ∀ (env : ClassifyEnv) (db : List Change),
      (∀ u ∈ (classifyChanges env db).2, u.2.1 ≠ "" ∧ u.2.2 ≠ "") ∧
      ((∀ (url : Option String) (dsum : String) (change : Change) (content : String),
          env.llm url dsum change = some content →
          ∀ (j : Json) (cl : String), jsonParse content = some j →
            classificationField j = some cl → cl ∈ schemaClassifications) →
        ∀ u ∈ (classifyChanges env db).2, u.2.1 ∈ schemaClassifications) := by
  intro env db
  constructor
  · intro u hu
    simp only [classifyChanges] at hu
    split_ifs at hu with h1 h2 h3
    · simp at hu
    · simp at hu
    · simp at hu
    · obtain ⟨ha, hb, _⟩ := classifyLoop_update_inv env env.sourceRows.reverse _ db u hu
      exact ⟨ha, hb⟩
  · intro hvocab u hu
    simp only [classifyChanges] at hu
    split_ifs at hu with h1 h2 h3
    · simp at hu
    · simp at hu
    · simp at hu
    · obtain ⟨_, _, dsum, change, content, j, hllm, hp, hc, _⟩ :=
        classifyLoop_update_inv env env.sourceRows.reverse _ db u hu
      exact hvocab _ dsum change content hllm j u.2.1 hp hc

/-- Counterexample to C4 as stated: with a provider response carrying the
classification "bogus" (outside the schema vocabulary) the classifier
persists it — the update is applied rather than rejected. -/
theorem spec_c4_counterexample :
    (1, "bogus", "e") ∈ (classifyChanges envC4 [changeC4]).2 ∧
    ("bogus" : String) ∉ schemaClassifications := by
  constructor
  · decide
  · decide

/-- Witness for C4 (amended): the concrete schema-conforming run persists
the non-empty pair and its classification lies in the vocabulary. -/
theorem spec_c4_witness :
    (((1, "breaking", "removes a field") : Nat × String × String).2.1 ≠ "" ∧
      ((1, "breaking", "removes a field") : Nat × String × String).2.2 ≠ "") ∧
    ((1, "breaking", "removes a field") : Nat × String × String).2.1 ∈ schemaClassifications := by
  refine ⟨(spec_c4 envC4w [changeC4]).1 (1, "breaking", "removes a field") (by decide), ?_⟩
  refine (spec_c4 envC4w [changeC4]).2 ?_ (1, "breaking", "removes a field") (by decide)
  intro url dsum change content h j cl hp hc
  have h2 : some ("\x7b\"classification\":\"breaking\",\"explanation\":\"removes a field\"\x7d") = some content := h
  obtain rfl := Option.some.inj h2
  have h3 : some (Json.obj [("classification", Json.str "breaking"), ("explanation", Json.str "removes a field")]) = some j := hp
  obtain rfl := Option.some.inj h3
  have h4 : some ("breaking") = some cl := hc
  obtain rfl := Option.some.inj h4
  decide

theorem lookupRpm_pos (limits : List (String × Nat)) (m : String) :
    0 < lookupRpm limits m := by
  unfold lookupRpm
  cases h : limits.lookup m with
  | none => decide
  | some r =>
    dsimp only
    split_ifs with hr <;> omega

theorem minDelayMs_pos (limits : List (String × Nat)) (m : String) :
    0 < minDelayMs limits m := by
  unfold minDelayMs
  apply div_pos
  · norm_num
  · exact_mod_cast lookupRpm_pos limits m

theorem stLast_cons (st : List (String × ℚ)) (m m' : String) (s : ℚ) :
    stLast ((m, s) :: st) m' = if m' = m then s else stLast st m' := by
  unfold stLast
  by_cases h : m' = m
  · simp [List.lookup, h]
  · have hb : (m' == m) = false := by
      simpa using h
    simp [List.lookup, hb, h]

theorem govStep_start_lb (limits : List (String × Nat)) (st : List (String × ℚ)) (e : CallEvent)
    (h : 0 ≤ e.startSlack) :
    stLast st e.model + minDelayMs limits e.model ≤ (govStep limits st e).1 := by
  show stLast st e.model + minDelayMs limits e.model ≤
    (if e.entryTime - stLast st e.model < minDelayMs limits e.model
      then e.entryTime + (minDelayMs limits e.model - (e.entryTime - stLast st e.model)) + e.startSlack
      else e.entryTime + e.startSlack)
  split_ifs with hc
  · linarith
  · have h2 := not_lt.mp hc
    linarith

theorem govRun_cons (limits : List (String × Nat)) (st : List (String × ℚ))
    (e : CallEvent) (rest : List CallEvent) :
    govRun limits st (e :: rest) =
      (govStep limits st e).1 :: govRun limits (govStep limits st e).2 rest := rfl

theorem govRun_length (limits : List (String × Nat)) :
    ∀ (events : List CallEvent) (st : List (String × ℚ)),
      (govRun limits st events).length = events.length := by
  intro events
  induction events with
  | nil =>
    intro st
    rfl
  | cons e rest ih =>
    intro st
    rw [govRun_cons]
    simp [ih]

theorem govRun_start_lb (limits : List (String × Nat)) :
    ∀ (events : List CallEvent) (st : List (String × ℚ)),
      (∀ e ∈ events, 0 ≤ e.startSlack) →
      ∀ pr ∈ events.zip (govRun limits st events),
        stLast st pr.1.model + minDelayMs limits pr.1.model ≤ pr.2 := by
  intro events
  induction events with
  | nil =>
    intro st _ pr hpr
    simp at hpr
  | cons e rest ih =>
    intro st hall pr hpr
    rw [govRun_cons, List.zip_cons_cons] at hpr
    rcases List.mem_cons.mp hpr with h1 | h1
    · subst h1
      exact govStep_start_lb limits st e (hall e (List.mem_cons_self _ _))
    · have hrest : ∀ x ∈ rest, 0 ≤ x.startSlack := fun x hx => hall x (List.mem_cons_of_mem _ hx)
      have h2 := ih (govStep limits st e).2 hrest pr h1
      have hmono : stLast st pr.1.model ≤ stLast (govStep limits st e).2 pr.1.model := by
        have hstep := govStep_start_lb limits st e (hall e (List.mem_cons_self _ _))
        have hd := minDelayMs_pos limits e.model
        rw [show (govStep limits st e).2 = (e.model, (govStep limits st e).1) :: st from rfl,
          stLast_cons]
        split_ifs with hm
        · rw [hm]
          linarith
        · linarith
      linarith

theorem govRun_pairwise (limits : List (String × Nat)) :
    ∀ (events : List CallEvent) (st : List (String × ℚ)),
      (∀ e ∈ events, 0 ≤ e.startSlack) →
      List.Pairwise (paced limits) (events.zip (govRun limits st events)) := by
  intro events
  induction events with
  | nil =>
    intro st _
    simp
  | cons e rest ih =>
    intro st hall
    have hrest : ∀ x ∈ rest, 0 ≤ x.startSlack := fun x hx => hall x (List.mem_cons_of_mem _ hx)
    rw [govRun_cons, List.zip_cons_cons]
    refine List.Pairwise.cons ?_ (ih (govStep limits st e).2 hrest)
    intro pr hpr
    unfold paced
    dsimp only
    intro hm
    have h2 := govRun_start_lb limits rest (govStep limits st e).2 hrest pr hpr
    rw [show (govStep limits st e).2 = (e.model, (govStep limits st e).1) :: st from rfl,
      stLast_cons, if_pos hm.symm] at h2
    rw [hm]
    exact h2

/-- C3: over any sequential run of the governed client, two calls naming
the same model start at least `60000 / RPM(model)` milliseconds apart, RPM
being looked up in the per-model table with default 15 when absent (a model
configured at 30 RPM hence gets at least 2000 ms between call starts); and
no call is dropped — the run forwards exactly one request per invocation. -/
theorem spec_c3 :
    ∀ (limits : List (String × Nat)) (events : List CallEvent),
      (∀ e ∈ events, 0 ≤ e.startSlack) →
      (govRun limits [] events).length = events.length ∧
      List.Pairwise (paced limits) (events.zip (govRun limits [] events)) ∧
      lookupRpm RATE_LIMITS ("gemini-2.0-flash-lite") = 30 ∧
      minDelayMs RATE_LIMITS ("gemini-2.0-flash-lite") = 2000 ∧
      (∀ (limits2 : List (String × Nat)) (m : String),
         limits2.lookup m = none → lookupRpm limits2 m = 15) := by
  intro limits events h
  refine ⟨govRun_length limits events [], govRun_pairwise limits events [] h, by decide, ?_, ?_⟩
  · show (60000 : ℚ) / (lookupRpm RATE_LIMITS ("gemini-2.0-flash-lite") : ℚ) = 2000
    rw [show lookupRpm RATE_LIMITS ("gemini-2.0-flash-lite") = 30 from by decide]
    norm_num
  · intro limits2 m h2
    unfold lookupRpm
    rw [h2]

/-- Witness for C3: the concrete two-call run for the 30-RPM model. -/
theorem spec_c3_witness :
    (govRun RATE_LIMITS [] eventsW).length = eventsW.length ∧
    List.Pairwise (paced RATE_LIMITS) (eventsW.zip (govRun RATE_LIMITS [] eventsW)) ∧
    lookupRpm RATE_LIMITS ("gemini-2.0-flash-lite") = 30 ∧
    minDelayMs RATE_LIMITS ("gemini-2.0-flash-lite") = 2000 ∧
    (∀ (limits2 : List (String × Nat)) (m : String),
       limits2.lookup m = none → lookupRpm limits2 m = 15) :=
  spec_c3 RATE_LIMITS eventsW (by decide)
